import Mathlib

/-!
Verification of the WordClockGrace DXF export pipeline.

This file is a shallow embedding of the DXF export code of the repository:

* `src/utils/dxfExporter.ts` — `createLetterGrid`, `exportGridToDXF`,
  `addVectorPaths`, `convertPolylinesToLines`, `dxfLine`, test-mode helpers;
* `src/utils/fontPathExtractor.ts` — `loadFont`, `getFont`,
  `createFallbackFont`, `extractGlyphPath`, `pathToDXFEntities`,
  `createDXFPolyline`, `removeColinearPoints`, `simplifyPolyline`,
  `perpendicularDistance`, bezier flattening.

Modelling conventions:

* A JavaScript `number` is modelled by `JSNum`: a finite rational, `NaN`,
  `+Infinity` or `-Infinity`.  Floating point rounding is abstracted away
  (arithmetic on finite values is exact rational arithmetic); the special
  values and the `isNaN` / `isFinite` tests are modelled faithfully.
* A DXF entity string (the TS code builds each entity as an array of lines
  joined with `"\n"`, and `convertPolylinesToLines` immediately splits on
  `"\n"` again; no line ever contains a newline, so join/split is a
  bijection) is modelled as the list of its lines, `Entity := List String`.
* `Math.sqrt` appears in the source only inside comparisons of distances
  (`distance > tolerance`, `distance > maxDistance`).  Since `Real.sqrt` is
  monotone on nonnegatives, those comparisons are decided exactly on the
  squared values; the definitions below carry the squared distances and a
  comment marks each such comparison.
-/

/-- Model of a JavaScript `number`: a finite rational or one of the special
values `NaN`, `Infinity`, `-Infinity`. -/
inductive JSNum where
  | num (q : ℚ)
  | nan
  | inf
  | ninf
deriving DecidableEq, Repr

namespace JSNum

/-- JS `isNaN(x)`. -/
def isNaNb : JSNum → Bool
  | nan => true
  | _ => false

/-- JS `isFinite(x)`. -/
def isFiniteb : JSNum → Bool
  | num _ => true
  | _ => false

/-- JS unary minus. -/
def neg : JSNum → JSNum
  | num q => num (-q)
  | nan => nan
  | inf => ninf
  | ninf => inf

/-- JS addition (IEEE-754 special-value rules, exact on finite values). -/
def add : JSNum → JSNum → JSNum
  | nan, _ => nan
  | _, nan => nan
  | inf, ninf => nan
  | ninf, inf => nan
  | inf, _ => inf
  | _, inf => inf
  | ninf, _ => ninf
  | _, ninf => ninf
  | num a, num b => num (a + b)

/-- JS subtraction. -/
def sub (a b : JSNum) : JSNum := add a (neg b)

/-- JS multiplication (IEEE-754 special-value rules, exact on finite
values; `±Infinity * 0 = NaN`). -/
def mul : JSNum → JSNum → JSNum
  | nan, _ => nan
  | _, nan => nan
  | num a, num b => num (a * b)
  | inf, inf => inf
  | inf, ninf => ninf
  | ninf, inf => ninf
  | ninf, ninf => inf
  | inf, num q => if q > 0 then inf else if q < 0 then ninf else nan
  | num q, inf => if q > 0 then inf else if q < 0 then ninf else nan
  | ninf, num q => if q > 0 then ninf else if q < 0 then inf else nan
  | num q, ninf => if q > 0 then ninf else if q < 0 then inf else nan

instance : Add JSNum := ⟨add⟩
instance : Sub JSNum := ⟨sub⟩
instance : Mul JSNum := ⟨mul⟩
instance : Neg JSNum := ⟨neg⟩

/-- The rational value of a finite `JSNum` (junk value `0` on the special
values; every use below is guarded by a finiteness filter). -/
def toQ : JSNum → ℚ
  | num q => q
  | _ => 0

end JSNum

/-- A 2-D point as manipulated by the export code (`{x, y}` objects of JS
numbers). -/
abbrev JSPoint := JSNum × JSNum

/-- The validity filter the source applies before serialization:
`!isNaN(p.x) && !isNaN(p.y) && isFinite(p.x) && isFinite(p.y)`. -/
def finitePt (p : JSPoint) : Bool :=
  !p.1.isNaNb && !p.2.isNaNb && p.1.isFiniteb && p.2.isFiniteb

/-- Decides `Math.sqrt(d2) > c` for a squared distance `d2` and a constant
`c ≥ 0`: `sqrt` of a negative or `NaN` argument is `NaN` and every
comparison with `NaN` is false; on nonnegative finite values the comparison
is decided on the squares. -/
def sqrtGT (d2 : JSNum) (c : ℚ) : Bool :=
  match d2 with
  | JSNum.num q => if q < 0 then false else q > c ^ 2
  | JSNum.nan => false
  | JSNum.inf => true
  | JSNum.ninf => false

section StringLayer

/-- Digits of `n` in base 16, most significant first, upper case
(JS `n.toString(16).toUpperCase()` for natural `n`). -/
def hexDigits (n : Nat) : List Char :=
  (Nat.toDigits 16 n).map Char.toUpper

/-- JS `n.toString(16).toUpperCase()` for a natural counter value. -/
def hexU (n : Nat) : String :=
  (hexDigits n).asString

/-- JS `s.padStart(len, c)`. -/
def padStart (s : String) (len : Nat) (c : Char) : String :=
  if s.length ≥ len then s
  else (List.replicate (len - s.length) c).asString ++ s

/-- Handle string as produced by
`handleCounter.value.toString(16).toUpperCase().padStart(4, '0')`. -/
def handle4 (n : Nat) : String := padStart (hexU n) 4 '0'

/-- JS `q.toFixed(6)` for a finite value: sign of the value, then the
magnitude rounded to six decimals (ties away from zero round up in
magnitude, matching the ECMAScript `toFixed` choice of the larger
candidate on the nonnegative magnitude). -/
def toFixed6 (q : ℚ) : String :=
  let m : Nat := (round (|q| * 1000000) : ℤ).toNat
  (if q < 0 then "-" else "") ++ toString (m / 1000000) ++ "." ++
    padStart (toString (m % 1000000)) 6 '0'

/-- JS `x.toFixed(6)` on a general number (`NaN.toFixed(6) = "NaN"` etc.). -/
def toFixed6J : JSNum → String
  | JSNum.num q => toFixed6 q
  | JSNum.nan => "NaN"
  | JSNum.inf => "Infinity"
  | JSNum.ninf => "-Infinity"

/-- Numeric value of a list of decimal digit characters. -/
def digitsVal (l : List Char) : Nat :=
  l.foldl (fun acc c => 10 * acc + (c.toNat - '0'.toNat)) 0

/-- JS `parseFloat(s)`: skip leading whitespace, optional sign, then the
longest prefix that is `Infinity` or a decimal numeral with optional
fraction and exponent; `NaN` when no digits are consumed.  (Exact rational
semantics for the decimal value.) -/
def parseFloat (s : String) : JSNum :=
  let cs := s.toList.dropWhile Char.isWhitespace
  let (sgn, cs) :=
    match cs with
    | '-' :: rest => ((-1 : ℚ), rest)
    | '+' :: rest => ((1 : ℚ), rest)
    | _ => ((1 : ℚ), cs)
  if cs.take 8 = "Infinity".toList then
    (if sgn < 0 then JSNum.ninf else JSNum.inf)
  else
    let ip := cs.takeWhile Char.isDigit
    let cs := cs.drop ip.length
    let (fp, cs) :=
      match cs with
      | '.' :: rest => (rest.takeWhile Char.isDigit, rest.drop ((rest.takeWhile Char.isDigit).length))
      | _ => ([], cs)
    if ip.isEmpty && fp.isEmpty then JSNum.nan
    else
      let mantissa : ℚ := (digitsVal ip : ℚ) + (digitsVal fp : ℚ) / (10 : ℚ) ^ fp.length
      let expo : ℤ :=
        match cs with
        | 'e' :: rest | 'E' :: rest =>
          let (esgn, rest) :=
            match rest with
            | '-' :: r => ((-1 : ℤ), r)
            | '+' :: r => ((1 : ℤ), r)
            | _ => ((1 : ℤ), rest)
          let ed := rest.takeWhile Char.isDigit
          if ed.isEmpty then 0 else esgn * (digitsVal ed : ℤ)
        | _ => 0
      JSNum.num (sgn * mantissa * (10 : ℚ) ^ expo)

end StringLayer

/-- A DXF entity record, as the list of its lines (the TS code builds each
entity as an array of group-code/value lines joined by newlines). -/
abbrev Entity := List String

/-- Default point used for (unreachable) out-of-range list reads; its
coordinates are `NaN` so that any accidental use is filtered out exactly
like an invalid point. -/
def dfltPt : JSPoint := (JSNum.nan, JSNum.nan)

/-- Models `!entity || entity.trim().length === 0`: the joined entity text
is blank iff every line is whitespace. -/
def jsEntityBlank (e : Entity) : Bool :=
  e.all (fun l => l.trim.isEmpty)

/-- Whether `pat` is a prefix of `l` (character lists). -/
def listPrefixB : List Char → List Char → Bool
  | [], _ => true
  | _ :: _, [] => false
  | a :: asl, b :: bs => a = b && listPrefixB asl bs

/-- Whether `pat` occurs as a contiguous substring of `l`. -/
def listContainsB (pat : List Char) : List Char → Bool
  | [] => pat.isEmpty
  | a :: rest => listPrefixB pat (a :: rest) || listContainsB pat rest

/-- Models `entity.includes('LWPOLYLINE')`; the pattern contains no newline
so an occurrence in the joined text lies within a single line. -/
def containsLW (e : Entity) : Bool :=
  e.any (fun l => listContainsB "LWPOLYLINE".toList l.toList)

section Geometry

/-- Squared value of `perpendicularDistance(point, lineStart, lineEnd)`
(fontPathExtractor.ts): for coincident endpoints the point-to-point
distance, otherwise `|cross| / sqrt(dx^2+dy^2)`.  The source returns the
real square root; all its uses are order comparisons, which are decided on
these exact squared rationals (`sqrt` is monotone on nonnegatives; the
`isFinite` guards of the source hold trivially on rationals). -/
def perpDistSq (p a b : JSPoint) : ℚ :=
  let px := p.1.toQ; let py := p.2.toQ
  let ax := a.1.toQ; let ay := a.2.toQ
  let bx := b.1.toQ; let b2 := b.2.toQ
  let dx := bx - ax
  let dy := b2 - ay
  if dx = 0 ∧ dy = 0 then (px - ax) ^ 2 + (py - ay) ^ 2
  else (dy * px - dx * py + bx * ay - b2 * ax) ^ 2 / (dx ^ 2 + dy ^ 2)

/-- Decides `sqrt dSq > tol` for `dSq ≥ 0`: always true for a negative
tolerance, otherwise compared on squares. -/
def gtTolSq (dSq tol : ℚ) : Bool :=
  if tol < 0 then true else dSq > tol ^ 2

/-- Interior loop of `removeColinearPoints`: walks the remaining points,
comparing each against the line from the last kept point to the next input
point; the final point is always kept. -/
def rcpGo (tol : ℚ) : JSPoint → List JSPoint → List JSPoint
  | _, [] => []
  | _, [lastP] => [lastP]
  | prev, curr :: next :: rest =>
    if gtTolSq (perpDistSq curr prev next) tol then
      curr :: rcpGo tol curr (next :: rest)
    else
      rcpGo tol prev (next :: rest)

/-- `removeColinearPoints(points, tolerance)` of fontPathExtractor.ts. -/
def removeColinearPoints (points : List JSPoint) (tolerance : ℚ := 1/100) :
    List JSPoint :=
  if points.length ≤ 2 then points
  else
    let validPoints := points.filter finitePt
    if validPoints.length ≤ 2 then validPoints
    else
      match validPoints with
      | [] => []
      | v0 :: rest => v0 :: rcpGo tolerance v0 rest

/-- Maximum-distance search of `simplifyPolyline`: squared distance and
index of the interior point farthest from the line first–last
(`distance > maxDistance` is strict, so the first maximum wins; the
`isFinite(distance)` guard holds trivially). -/
def rdpMax (valid : List JSPoint) (first lastP : JSPoint) : ℚ × Nat :=
  ((valid.enum.drop 1).dropLast).foldl
    (fun best ip =>
      let d := perpDistSq ip.2 first lastP
      if d > best.1 then (d, ip.1) else best)
    ((0 : ℚ), 0)

/-- `simplifyPolyline` (Ramer–Douglas–Peucker), with explicit fuel for the
recursion.  For a nonnegative tolerance the recursive branch is taken only
when some interior point updated the maximum (so `1 ≤ maxIndex ≤ n-2`) and
both slices are strictly shorter, hence a fuel of `points.length` is never
exhausted; for a negative tolerance the source recursion would not
terminate (`points.slice(0)` recurses on the same array), and the model
returns the input when the fuel runs out. -/
def simplifyGo (tol : ℚ) : Nat → List JSPoint → List JSPoint
  | 0, points => points
  | fuel + 1, points =>
    if points.length ≤ 2 then points
    else
      let valid := points.filter finitePt
      if valid.length ≤ 2 then valid
      else
        let first := valid.getD 0 dfltPt
        let lastP := valid.getD (valid.length - 1) dfltPt
        let best := rdpMax valid first lastP
        if gtTolSq best.1 tol then
          let left := simplifyGo tol fuel (valid.take (best.2 + 1))
          let right := simplifyGo tol fuel (valid.drop best.2)
          left.dropLast ++ right
        else [first, lastP]

/-- `simplifyPolyline(points, tolerance)` of fontPathExtractor.ts. -/
def simplifyPolyline (points : List JSPoint) (tolerance : ℚ) : List JSPoint :=
  simplifyGo tolerance points.length points

end Geometry

section PathLayer

/-- OpenType path commands as consumed by `pathToDXFEntities`
(`M`, `L`, cubic `C`, quadratic `Q`, close `Z`). -/
inductive PathCommand where
  | M (x y : JSNum)
  | L (x y : JSNum)
  | C (x1 y1 x2 y2 x y : JSNum)
  | Q (x1 y1 x y : JSNum)
  | Z
deriving DecidableEq, Repr

/-- Whether a command is a MoveTo. -/
def PathCommand.isM : PathCommand → Bool
  | .M _ _ => true
  | _ => false

/-- Whether a command is a ClosePath. -/
def PathCommand.isZ : PathCommand → Bool
  | .Z => true
  | _ => false

/-- `cubicBezierToPoints`: sample points of a cubic bezier at
`t = i/segments`, `i = 0..segments`. -/
def cubicBezierToPoints (x1 y1 x2 y2 x3 y3 x4 y4 : JSNum) (segments : Nat) :
    List JSPoint :=
  (List.range (segments + 1)).map fun i =>
    let t : ℚ := (i : ℚ) / (segments : ℚ)
    let u := 1 - t
    let tt := t * t
    let uu := u * u
    let uuu := uu * u
    let ttt := tt * t
    let x := JSNum.num uuu * x1 + JSNum.num (3 * uu * t) * x2 +
      JSNum.num (3 * u * tt) * x3 + JSNum.num ttt * x4
    let y := JSNum.num uuu * y1 + JSNum.num (3 * uu * t) * y2 +
      JSNum.num (3 * u * tt) * y3 + JSNum.num ttt * y4
    (x, y)

/-- `quadraticBezierToPoints`: sample points of a quadratic bezier. -/
def quadraticBezierToPoints (x1 y1 x2 y2 x3 y3 : JSNum) (segments : Nat) :
    List JSPoint :=
  (List.range (segments + 1)).map fun i =>
    let t : ℚ := (i : ℚ) / (segments : ℚ)
    let u := 1 - t
    let x := JSNum.num (u * u) * x1 + JSNum.num (2 * u * t) * x2 +
      JSNum.num (t * t) * x3
    let y := JSNum.num (u * u) * y1 + JSNum.num (2 * u * t) * y2 +
      JSNum.num (t * t) * y3
    (x, y)

/-- Flattening loop of `pathToDXFEntities` over one path group: applies the
horizontal stretch, the offsets and the DXF Y-flip, samples beziers, and on
`Z` appends the first point when the distance from the last point exceeds
0.1 (`sqrt` comparison decided on squares by `sqrtGT`). -/
def flattenGo (offX offY stretch : JSNum) :
    List PathCommand → JSNum → JSNum → List JSPoint → List JSPoint
  | [], _, _, acc => acc
  | cmd :: rest, cx, cy, acc =>
    match cmd with
    | .M x y =>
      let nx := x * stretch + offX
      let ny := -y + offY
      flattenGo offX offY stretch rest nx ny (acc ++ [(nx, ny)])
    | .L x y =>
      let nx := x * stretch + offX
      let ny := -y + offY
      flattenGo offX offY stretch rest nx ny (acc ++ [(nx, ny)])
    | .C x1 y1 x2 y2 x y =>
      let cp1X := x1 * stretch + offX
      let cp1Y := -y1 + offY
      let cp2X := x2 * stretch + offX
      let cp2Y := -y2 + offY
      let endX := x * stretch + offX
      let endY := -y + offY
      let bpts := cubicBezierToPoints cx cy cp1X cp1Y cp2X cp2Y endX endY 8
      flattenGo offX offY stretch rest endX endY (acc ++ bpts.drop 1)
    | .Q x1 y1 x y =>
      let qcpX := x1 * stretch + offX
      let qcpY := -y1 + offY
      let qendX := x * stretch + offX
      let qendY := -y + offY
      let qpts := quadraticBezierToPoints cx cy qcpX qcpY qendX qendY 6
      flattenGo offX offY stretch rest qendX qendY (acc ++ qpts.drop 1)
    | .Z =>
      let acc' :=
        match acc with
        | [] => acc
        | _ =>
          let lastP := acc.getLast?.getD dfltPt
          let firstP := acc.headD dfltPt
          let d2 := (lastP.1 - firstP.1) * (lastP.1 - firstP.1) +
            (lastP.2 - firstP.2) * (lastP.2 - firstP.2)
          if sqrtGT d2 (1/10) then acc ++ [(firstP.1, firstP.2)] else acc
      flattenGo offX offY stretch rest cx cy acc'

/-- The contour point sequence `polylinePoints` built by
`pathToDXFEntities` for one path group. -/
def flattenGroup (group : List PathCommand) (offX offY stretch : JSNum) :
    List JSPoint :=
  flattenGo offX offY stretch group (JSNum.num 0) (JSNum.num 0) []

/-- Grouping loop of `pathToDXFEntities`: a `M` with a nonempty current
group starts a new group, and `Z` commands are not pushed
("Only push commands that have x,y coordinates"). -/
def groupGo : List PathCommand → List PathCommand → List (List PathCommand)
  | [], current => if current.isEmpty then [] else [current]
  | c :: rest, current =>
    let flushed : List (List PathCommand) :=
      if c.isM ∧ ¬current.isEmpty then [current] else []
    let current1 := if c.isM ∧ ¬current.isEmpty then [] else current
    let current2 := if c.isZ then current1 else current1 ++ [c]
    flushed ++ groupGo rest current2

/-- The path groups (separate contours, e.g. letters with holes) formed by
`pathToDXFEntities` before flattening. -/
def groupCommands (cmds : List PathCommand) : List (List PathCommand) :=
  groupGo cmds []

/-- `createDXFPolyline(points, closed, handle)`: filters out invalid
points, returns the empty record below two valid points, otherwise the
LWPOLYLINE record with the vertex count and 6-decimal coordinates. -/
def createDXFPolyline (points : List JSPoint) (closed : Bool)
    (handle : String := "3") : Entity :=
  let validPoints := points.filter finitePt
  if validPoints.length < 2 then []
  else
    let entity : Entity :=
      ["0", "LWPOLYLINE", "5", handle, "8", "0", "100", "AcDbEntity",
       "100", "AcDbPolyline", "70", if closed then "1" else "0",
       "90", toString validPoints.length, "43", "0"]
    validPoints.foldl
      (fun acc p => acc ++ ["10", toFixed6J p.1, "20", toFixed6J p.2]) entity

/-- The simplification pipeline `pathToDXFEntities` applies to the
validated points of one contour: collinear removal at tolerance 0.01,
Ramer–Douglas–Peucker at 0.02, then revalidation.  (The source wraps the
two simplification steps in try/catch with the validated points as
fallback; the model is total so the catch branch is unreachable.) -/
def simplifySteps (validPoints : List JSPoint) : List JSPoint :=
  let s1 := removeColinearPoints validPoints (1/100)
  let s2 := simplifyPolyline s1 (1/50)
  s2.filter finitePt

/-- The point sequence of the contour emitted for one path group: flatten,
validate, simplify, revalidate. -/
def processedGroupPoints (group : List PathCommand) (offX offY stretch : JSNum) :
    List JSPoint :=
  simplifySteps ((flattenGroup group offX offY stretch).filter finitePt)

/-- Per-group step of `pathToDXFEntities`: flatten the group, validate,
simplify, and when at least two points survive emit one closed LWPOLYLINE
and advance the handle counter. -/
def pathGroupStep (offX offY stretch : JSNum) (st : List Entity × Nat)
    (group : List PathCommand) : List Entity × Nat :=
  if group.isEmpty then st
  else
    let polylinePoints := flattenGroup group offX offY stretch
    if polylinePoints.length ≥ 2 then
      let validPoints := polylinePoints.filter finitePt
      if validPoints.length < 2 then st
      else
        let simplified := simplifySteps validPoints
        if simplified.length ≥ 2 then
          let handle := handle4 st.2
          let polyline := createDXFPolyline simplified true handle
          if ¬jsEntityBlank polyline then (st.1 ++ [polyline], st.2 + 1)
          else st
        else st
    else st

/-- `pathToDXFEntities(path, offsetX, offsetY, startHandle,
horizontalStretch)`: one closed LWPOLYLINE per path group with at least two
valid (simplified) points, handles assigned from `startHandle` upward. -/
def pathToDXFEntities (cmds : List PathCommand) (offX offY : JSNum)
    (startHandle : Nat := 1000) (stretch : JSNum := JSNum.num 1) :
    List Entity × Nat :=
  if cmds.isEmpty then ([], startHandle)
  else
    let res := (groupCommands cmds).foldl (pathGroupStep offX offY stretch)
      ([], startHandle)
    (res.1.filter (fun e => ¬jsEntityBlank e), res.2)

end PathLayer

section ConvertLayer

/-- A DXF LINE record as emitted by `convertPolylinesToLines` (and by
`dxfLine`, which uses plain `toString` coordinates instead). -/
def mkLineEnt (h x1 y1 x2 y2 : String) : Entity :=
  ["0", "LINE", "5", h, "8", "0", "100", "AcDbEntity", "100", "AcDbLine",
   "10", x1, "20", y1, "30", "0", "11", x2, "21", y2, "31", "0"]

/-- Vertex scan of `convertPolylinesToLines`: a `10` line with a `20` line
two further on (and at least three lines after it) yields a candidate
point, kept when both parsed coordinates are valid; the scan then skips
past the consumed value lines. -/
def parsePointsGo : List String → List JSPoint
  | a :: b :: c :: d :: rest =>
    if a.trim = "10" ∧ c.trim = "20" then
      let x := parseFloat b
      let y := parseFloat d
      (if finitePt (x, y) then [(x, y)] else []) ++ parsePointsGo rest
    else parsePointsGo (b :: c :: d :: rest)
  | _ => []

/-- Point extraction of `convertPolylinesToLines` from an LWPOLYLINE
record: vertex data starts two lines past the first `90` line (skipping
the vertex count), or at the start when no `90` line exists. -/
def parsePolyPoints (e : Entity) : List JSPoint :=
  let startIndex :=
    match e.findIdx? (fun l => l.trim = "90") with
    | some i => i + 2
    | none => 0
  parsePointsGo (e.drop startIndex)

/-- Segment-emission loop of `convertPolylinesToLines`: one LINE per point
paired with its cyclic successor, consuming one handle per emitted LINE
(the NaN recheck of the source is kept; it always passes for parsed
points). -/
def emitSegments (points : List JSPoint) (hc : Nat) : List Entity × Nat :=
  (List.range points.length).foldl
    (fun (st : List Entity × Nat) i =>
      let start := points.getD i dfltPt
      let stop := points.getD ((i + 1) % points.length) dfltPt
      if !start.1.isNaNb ∧ !start.2.isNaNb ∧ !stop.1.isNaNb ∧ !stop.2.isNaNb then
        (st.1 ++ [mkLineEnt (hexU st.2) (toFixed6J start.1) (toFixed6J start.2)
          (toFixed6J stop.1) (toFixed6J stop.2)], st.2 + 1)
      else st)
    ([], hc)

/-- Per-entity step of `convertPolylinesToLines`: drop blank entities,
replace LWPOLYLINE records with at least two parsed valid points by their
segment LINEs, pass other nonblank entities through. -/
def convertStep (st : List Entity × Nat) (e : Entity) : List Entity × Nat :=
  if jsEntityBlank e then st
  else if containsLW e then
    let points := parsePolyPoints e
    if points.length ≥ 2 then
      let res := emitSegments points st.2
      (st.1 ++ res.1, res.2)
    else st
  else (st.1 ++ [e], st.2)

/-- `convertPolylinesToLines(polylineEntities, handleCounter)`: blank
entities are dropped, LWPOLYLINE records with at least two parsed valid
points are replaced by their segment LINEs, other nonblank entities pass
through; the handle counter is threaded through. -/
def convertPolylinesToLines (entities : List Entity) (hc : Nat) :
    List Entity × Nat :=
  entities.foldl convertStep ([], hc)

end ConvertLayer

section FontLayer

/-- A glyph bounding box as returned by `path.getBoundingBox()`. -/
structure BBox where
  x1 : ℚ
  y1 : ℚ
  x2 : ℚ
  y2 : ℚ
deriving DecidableEq, Repr

/-- An OpenType path object as used by the export: its command list and its
bounding box (the source treats `getBoundingBox()` as given by the path
object). -/
structure GPath where
  commands : List PathCommand
  bbox : BBox
deriving DecidableEq

/-- A glyph object: `getPath(x, y, fontSize)`. -/
structure Glyph where
  getPath : ℚ → ℚ → ℚ → GPath

/-- A font object: `charToGlyph(char)`, `none` modelling a null glyph. -/
structure Font where
  charToGlyph : Char → Option Glyph

/-- `createFallbackFont()`: every character maps to the fixed
notch-rectangle glyph of width `0.6*fontSize` and height `0.8*fontSize`. -/
def createFallbackFont : Font where
  charToGlyph := fun _ =>
    some ⟨fun x y fontSize =>
      let width := fontSize * (3/5)
      let height := fontSize * (4/5)
      { commands :=
          [.M (JSNum.num x) (JSNum.num y),
           .L (JSNum.num (x + width)) (JSNum.num y),
           .L (JSNum.num (x + width)) (JSNum.num (y + height)),
           .L (JSNum.num x) (JSNum.num (y + height)),
           .L (JSNum.num x) (JSNum.num (y + height * (3/10))),
           .L (JSNum.num (x + width * (1/5))) (JSNum.num (y + height * (3/10))),
           .L (JSNum.num (x + width * (1/5))) (JSNum.num y),
           .Z],
        bbox := ⟨x, y, x + width, y + height⟩ }⟩

/-- `extractGlyphPath(font, char, fontSize)`: the glyph path at origin
`(0,0)`, `none` when the glyph is missing (the source's try/catch also
yields null). -/
def extractGlyphPath (font : Font) (char : Char) (fontSize : ℚ) :
    Option GPath :=
  (font.charToGlyph char).map fun glyph => glyph.getPath 0 0 fontSize

/-- A font configuration entry of `fontConfigs`. -/
structure FontConfig where
  name : String
  url : String
  fallback : String
deriving DecidableEq, Repr

/-- The `fontConfigs` list of fontPathExtractor.ts. -/
def fontConfigs : List FontConfig :=
  [⟨"Monaco", "/fonts/Monaco.ttf", "Monaco, Menlo, Ubuntu Mono, monospace"⟩,
   ⟨"Arial", "/fonts/arial.ttf", "Arial, sans-serif"⟩,
   ⟨"Ruler Stencil Regular", "/fonts/Ruler Stencil Regular.ttf", "Arial, sans-serif"⟩,
   ⟨"Ruler Stencil Bold", "/fonts/Ruler Stencil Bold.ttf", "Arial, sans-serif"⟩,
   ⟨"Ruler Stencil Heavy", "/fonts/Ruler Stencil Heavy.ttf", "Arial, sans-serif"⟩,
   ⟨"Ruler Stencil Light", "/fonts/Ruler Stencil Light.ttf", "Arial, sans-serif"⟩,
   ⟨"Ruler Stencil Thin", "/fonts/Ruler Stencil Thin.ttf", "Arial, sans-serif"⟩,
   ⟨"Warzone Stencil", "/fonts/Warzone Stencil.ttf", "Arial, sans-serif"⟩,
   ⟨"Lazer Game Zone", "/fonts/Lazer Game Zone.ttf", "Arial, sans-serif"⟩,
   ⟨"Octin Stencil Rg", "/fonts/octin stencil rg.ttf", "Arial, sans-serif"⟩,
   ⟨"Ombudsman Alternate", "/fonts/OmbudsmanAlternate-6YvDq.otf", "Arial, sans-serif"⟩]

/-- `loadFont(fontName)`.  The font cache is the `cache` parameter (the
state of `fontCache` at call time; the insertion side effect is not
represented), and `env url` models the outcome of `opentype.load` for the
configured URL (`none` = the fetch/parse rejects; the cache-busting query
parameter does not change which resource is addressed).  On a fetch
failure for any name other than `"Arial"` the source retries with
`"Arial"`; an unknown name returns null immediately. -/
def loadFont (cache : List (String × Font)) (env : String → Option Font)
    (fontName : String) : Option Font :=
  match cache.find? (fun p => p.1 == fontName) with
  | some p => some p.2
  | none =>
    match fontConfigs.find? (fun c => c.name == fontName) with
    | none => none
    | some config =>
      match env config.url with
      | some font => some font
      | none =>
        if fontName ≠ "Arial" then loadFont cache env "Arial" else none
termination_by (if fontName = "Arial" then 0 else 1)
decreasing_by simp_all

/-- `getFont(fontName)`: cache lookup, then `loadFont`. -/
def getFont (cache : List (String × Font)) (env : String → Option Font)
    (fontName : String) : Option Font :=
  match cache.find? (fun p => p.1 == fontName) with
  | some p => some p.2
  | none => loadFont cache env fontName

/-- The font `exportGridToDXF` hands to `addVectorPaths`: the loaded font,
or the synthetic fallback font when `getFont` yields null. -/
def fontForVectorPaths (cache : List (String × Font))
    (env : String → Option Font) (fontName : String) : Font :=
  match getFont cache env fontName with
  | some f => f
  | none => createFallbackFont

end FontLayer

section GridLayer

/-- Word direction in a layout. -/
inductive Direction where
  | horizontal
  | vertical
deriving DecidableEq, Repr

/-- A placed word of a `ClockLayout` (the fields destructured by
`createLetterGrid`); the word is its character list. -/
structure WordPos where
  word : List Char
  startRow : ℤ
  startCol : ℤ
  direction : Direction
deriving DecidableEq, Repr

/-- The layout data `createLetterGrid` consumes. -/
structure ClockLayout where
  gridWidth : Nat
  gridHeight : Nat
  words : List WordPos

/-- `grid[row][col] = ch`. -/
def setCell (g : List (List Char)) (r c : Nat) (ch : Char) :
    List (List Char) :=
  g.set r ((g.getD r []).set c ch)

/-- One letter of a word placement: the letter is written only when its
computed row and column lie inside the grid. -/
def placeLetterStep (H W : Nat) (wp : WordPos) (g : List (List Char))
    (i : Nat) : List (List Char) :=
  let row : ℤ :=
    match wp.direction with
    | .horizontal => wp.startRow
    | .vertical => wp.startRow + (i : ℤ)
  let col : ℤ :=
    match wp.direction with
    | .horizontal => wp.startCol + (i : ℤ)
    | .vertical => wp.startCol
  if 0 ≤ row ∧ row < H ∧ 0 ≤ col ∧ col < W then
    setCell g row.toNat col.toNat (wp.word.getD i ' ')
  else g

/-- Placement of one word, letter by letter. -/
def placeWord (H W : Nat) (g : List (List Char)) (wp : WordPos) :
    List (List Char) :=
  (List.range wp.word.length).foldl (placeLetterStep H W wp) g

/-- `createLetterGrid(layout)`: a `gridHeight × gridWidth` grid of spaces,
then the words placed in list order. -/
def createLetterGrid (layout : ClockLayout) : List (List Char) :=
  layout.words.foldl (placeWord layout.gridHeight layout.gridWidth)
    (List.replicate layout.gridHeight
      (List.replicate layout.gridWidth ' '))

end GridLayer

section ExportLayer

/-- Fractional decimal digits of `0 ≤ r < 1`, up to `fuel` digits, stopping
at a zero remainder. -/
def fracDigitsGo : Nat → ℚ → String
  | 0, _ => ""
  | fuel + 1, r =>
    if r = 0 then ""
    else
      let d := ⌊r * 10⌋
      toString d.toNat ++ fracDigitsGo fuel (r * 10 - d)

/-- JS `Number.prototype.toString` for the values the exporter serializes
this way (grid-line, border and test-shape coordinates): exact decimal
rendering for terminating decimals, capped at 20 fractional digits. -/
def numToString (q : ℚ) : String :=
  if q.den = 1 then toString q.num
  else
    (if q < 0 then "-" else "") ++ toString (⌊|q|⌋.toNat) ++ "." ++
      fracDigitsGo 20 (|q| - ⌊|q|⌋)

/-- `dxfLine(x1, y1, x2, y2, handle)` of dxfExporter.ts. -/
def dxfLine (x1 y1 x2 y2 : ℚ) (handle : String) : Entity :=
  mkLineEnt handle (numToString x1) (numToString y1) (numToString x2)
    (numToString y2)

/-- The DXF export configuration (the merged `finalConfig`; fields that are
optional in the TS interface and read through `??` stay optional here). -/
structure DXFConfig where
  letterSize : ℚ
  gridSpacing : ℚ
  gridSpacingY : Option ℚ
  margin : ℚ
  fontName : String
  addBorder : Bool
  addGridLines : Bool
  useVectorPaths : Bool
  testMode : Bool
  letterPaddingPercent : Option ℚ
  horizontalStretch : Option ℚ
  wStretch : Option ℚ
  centerHorizontally : Option Bool

/-- `defaultConfig` of dxfExporter.ts. -/
def defaultConfig : DXFConfig where
  letterSize := 10
  gridSpacing := 5/2
  gridSpacingY := some 3
  margin := 2
  fontName := "Ruler Stencil Regular"
  addBorder := true
  addGridLines := false
  useVectorPaths := true
  testMode := false
  letterPaddingPercent := some (1/10)
  horizontalStretch := some (31/20)
  wStretch := some (9/10)
  centerHorizontally := some true

/-- `config.gridSpacingY ?? config.gridSpacing`. -/
def spacingYOf (c : DXFConfig) : ℚ := c.gridSpacingY.getD c.gridSpacing

/-- The clamped per-side padding percentage
`Math.max(0, Math.min(0.49, config.letterPaddingPercent ?? 0.1))`. -/
def marginPctOf (c : DXFConfig) : ℚ :=
  max 0 (min (49/100) (c.letterPaddingPercent.getD (1/10)))

/-- `targetHeight = spacingY * (1 - 2 * marginPct)`. -/
def targetHeightFor (c : DXFConfig) : ℚ :=
  spacingYOf c * (1 - 2 * marginPctOf c)

/-- The clamped measured glyph height at reference size 1000:
`Math.max(0.0001, mbox.y2 - mbox.y1)`; `none` when the measure path is
missing. -/
def measuredHeightAt1000 (font : Font) (letter : Char) : Option ℚ :=
  (extractGlyphPath font letter 1000).map fun mp =>
    max (1/10000) (mp.bbox.y2 - mp.bbox.y1)

/-- `fontSizeForTarget = (targetHeight * 1000) / mheight`. -/
def fontSizeForTarget (font : Font) (c : DXFConfig) (letter : Char) :
    Option ℚ :=
  (measuredHeightAt1000 font letter).map fun mheight =>
    targetHeightFor c * 1000 / mheight

/-- The effective horizontal stretch for a letter, with the W-specific
extra factor (`letter.toUpperCase() === 'W'`). -/
def stretchFor (c : DXFConfig) (letter : Char) : ℚ :=
  let baseStretch := c.horizontalStretch.getD 1
  let wStr := c.wStretch.getD 1
  if letter.toUpper = 'W' then baseStretch * wStr else baseStretch

/-- The cell's horizontal center `cx = margin + (col + 0.5) * spacingX`. -/
def cellCenterX (c : DXFConfig) (col : Nat) : ℚ :=
  c.margin + ((col : ℚ) + 1/2) * c.gridSpacing

/-- The cell's vertical center
`cy = totalHeight - margin - (row + 0.5) * spacingY`. -/
def cellCenterY (c : DXFConfig) (totalHeight : ℚ) (row : Nat) : ℚ :=
  totalHeight - c.margin - ((row : ℚ) + 1/2) * spacingYOf c

/-- The horizontal placement offset of `addVectorPaths`: with centering,
the cell center minus the midpoint of the stretched bounds; otherwise
left-aligned to the cell's left edge. -/
def offsetXFor (c : DXFConfig) (bounds : BBox) (col : Nat) (letter : Char) :
    ℚ :=
  let s := stretchFor c letter
  let sx1 := bounds.x1 * s
  let sx2 := bounds.x2 * s
  if c.centerHorizontally.getD true then
    cellCenterX c col - (sx1 + sx2) / 2
  else
    c.margin + (col : ℚ) * c.gridSpacing - sx1

/-- The vertical placement offset (Y is negated later, so the bounds center
is added). -/
def offsetYFor (c : DXFConfig) (totalHeight : ℚ) (bounds : BBox)
    (row : Nat) : ℚ :=
  cellCenterY c totalHeight row + (bounds.y1 + bounds.y2) / 2

/-- One non-blank cell of `addVectorPaths`: measure the glyph at size 1000,
fit to the cell height, extract the scaled path, position it, convert to
polylines and then to LINE entities.  The handle counter is advanced to
`result.nextHandle` of `pathToDXFEntities` even though
`convertPolylinesToLines` consumed further handles (this mirrors the
source verbatim). -/
def processCell (c : DXFConfig) (totalHeight : ℚ) (font : Font)
    (row col : Nat) (letter : Char) (st : List Entity × Nat) :
    List Entity × Nat :=
  match fontSizeForTarget font c letter with
  | none => st
  | some fsz =>
    match extractGlyphPath font letter fsz with
    | none => st
    | some path =>
      let bounds := path.bbox
      let offsetX := offsetXFor c bounds col letter
      let offsetY := offsetYFor c totalHeight bounds row
      let result := pathToDXFEntities path.commands (JSNum.num offsetX)
        (JSNum.num offsetY) st.2 (JSNum.num (stretchFor c letter))
      let lineEntities := convertPolylinesToLines result.1 st.2
      (st.1 ++ lineEntities.1, result.2)

/-- `addVectorPaths`: row-major walk over the grid, skipping blank cells. -/
def addVectorPaths (grid : List (List Char)) (layout : ClockLayout)
    (c : DXFConfig) (totalHeight : ℚ) (font : Font) (hc : Nat) :
    List Entity × Nat :=
  (List.range layout.gridHeight).foldl
    (fun st row =>
      (List.range layout.gridWidth).foldl
        (fun st col =>
          let letter := (grid.getD row []).getD col ' '
          if letter = ' ' then st
          else processCell c totalHeight font row col letter st)
        st)
    ([], hc)

/-- `createSimpleTestLines`: the cross pattern of three LINE entities. -/
def createSimpleTestLines (hc : Nat) : List Entity × Nat :=
  ([dxfLine 30 50 70 50 (hexU hc),
    dxfLine 50 30 50 70 (hexU (hc + 1)),
    dxfLine 30 30 70 70 (hexU (hc + 2))], hc + 3)

/-- `createFallbackSquare`: four LINE entities around a center. -/
def createFallbackSquare (centerX centerY size : ℚ) (hc : Nat) :
    List Entity × Nat :=
  let halfSize := size / 2
  let points : List (ℚ × ℚ) :=
    [(centerX - halfSize, centerY - halfSize),
     (centerX + halfSize, centerY - halfSize),
     (centerX + halfSize, centerY + halfSize),
     (centerX - halfSize, centerY + halfSize)]
  ((List.range points.length).map (fun i =>
    let s := points.getD i (0, 0)
    let e := points.getD ((i + 1) % points.length) (0, 0)
    dxfLine s.1 s.2 e.1 e.2 (hexU (hc + i))), hc + points.length)

/-- `addSingleLetter` (test mode): centers the letter at the middle of a
10×10 grid; same post-conversion handle reset as `addVectorPaths`. -/
def addSingleLetter (letter : Char) (c : DXFConfig) (totalHeight : ℚ)
    (hc : Nat) (font : Font) : List Entity × Nat :=
  let centerX := c.margin + c.gridSpacing * 5
  let centerY := totalHeight - c.margin - c.gridSpacing * 5
  match extractGlyphPath font letter c.letterSize with
  | some path =>
    let bounds := path.bbox
    let offsetX := centerX - (bounds.x1 + bounds.x2) / 2
    let offsetY := centerY - (bounds.y1 + bounds.y2) / 2
    let result := pathToDXFEntities path.commands (JSNum.num offsetX)
      (JSNum.num offsetY) hc
    let lineEntities := convertPolylinesToLines result.1 hc
    (lineEntities.1, result.2)
  | none => createFallbackSquare centerX centerY c.letterSize hc

/-- `addTestShapes`: simple test lines, then the letter `A` with the loaded
or fallback font. -/
def addTestShapes (cache : List (String × Font)) (env : String → Option Font)
    (c : DXFConfig) (totalHeight : ℚ) (hc : Nat) : List Entity × Nat :=
  let t := createSimpleTestLines hc
  let font := fontForVectorPaths cache env c.fontName
  let s := addSingleLetter 'A' c totalHeight t.2 font
  (t.1 ++ s.1, s.2)

/-- The entity list assembled by `exportGridToDXF` (the pure part of the
export: grid lines, letters, border; the surrounding Blob/DOM download
machinery is outside the model).  `c` is the merged `finalConfig`. -/
def exportEntities (cache : List (String × Font)) (env : String → Option Font)
    (layout : ClockLayout) (c : DXFConfig) : List Entity :=
  let grid := createLetterGrid layout
  let spacingX := c.gridSpacing
  let spacingY := spacingYOf c
  let totalWidth := (layout.gridWidth : ℚ) * spacingX + 2 * c.margin
  let totalHeight := (layout.gridHeight : ℚ) * spacingY + 2 * c.margin
  let st0 : List Entity × Nat := ([], 10)
  let st1 :=
    if c.addGridLines then
      let sv := (List.range (layout.gridWidth + 1)).foldl
        (fun (st : List Entity × Nat) col =>
          let x := c.margin + (col : ℚ) * spacingX
          (st.1 ++ [dxfLine x c.margin x (totalHeight - c.margin) (handle4 st.2)],
           st.2 + 1))
        st0
      (List.range (layout.gridHeight + 1)).foldl
        (fun (st : List Entity × Nat) row =>
          let y := c.margin + (row : ℚ) * spacingY
          (st.1 ++ [dxfLine c.margin y (totalWidth - c.margin) y (handle4 st.2)],
           st.2 + 1))
        sv
    else st0
  let st2 :=
    if c.testMode then
      let r := addTestShapes cache env c totalHeight st1.2
      (st1.1 ++ r.1, r.2)
    else if c.useVectorPaths then
      let font := fontForVectorPaths cache env c.fontName
      let r := addVectorPaths grid layout c totalHeight font st1.2
      (st1.1 ++ r.1, r.2)
    else st1
  let st3 :=
    if c.addBorder then
      let x := c.margin
      let y := c.margin
      let w := (layout.gridWidth : ℚ) * spacingX
      let h := (layout.gridHeight : ℚ) * spacingY
      (st2.1 ++
        [dxfLine x y (x + w) y (handle4 st2.2),
         dxfLine (x + w) y (x + w) (y + h) (handle4 (st2.2 + 1)),
         dxfLine (x + w) (y + h) x (y + h) (handle4 (st2.2 + 2)),
         dxfLine x (y + h) x y (handle4 (st2.2 + 3))], st2.2 + 4)
    else st2
  st3.1

/-- `buildMinimalDXF(entities)`: the entities-only document text. -/
def buildMinimalDXF (entities : List Entity) : String :=
  String.intercalate "\n"
    (["0", "SECTION", "2", "ENTITIES"] ++ entities.flatMap id ++
     ["0", "ENDSEC", "0", "EOF"])

/-- The handle of an emitted entity: the value line following the group
code `5` (all entities of this exporter place it at index 3). -/
def handleOf (e : Entity) : Option String := e.get? 3

end ExportLayer

section ClaimSupport

/-- LWPOLYLINE record shape: header with closed flag and vertex count,
then the 6-decimal vertex coordinates (reference shape compared against
`createDXFPolyline`). -/
def polyRecordC (handle : String) (closed : Bool) (pts : List JSPoint) :
    Entity :=
  ["0", "LWPOLYLINE", "5", handle, "8", "0", "100", "AcDbEntity",
   "100", "AcDbPolyline", "70", if closed then "1" else "0",
   "90", toString pts.length, "43", "0"] ++
    pts.flatMap (fun p => ["10", toFixed6J p.1, "20", toFixed6J p.2])

/-- Closed LWPOLYLINE record whose every coordinate is the 6-decimal
rendering of a (finite) rational. -/
def polyRecordQ (handle : String) (qs : List (ℚ × ℚ)) : Entity :=
  ["0", "LWPOLYLINE", "5", handle, "8", "0", "100", "AcDbEntity",
   "100", "AcDbPolyline", "70", "1",
   "90", toString qs.length, "43", "0"] ++
    qs.flatMap (fun p => ["10", toFixed6 p.1, "20", toFixed6 p.2])

/-- LINE record whose every coordinate is the 6-decimal rendering of a
(finite) rational. -/
def lineRecordQ (h : String) (x1 y1 x2 y2 : ℚ) : Entity :=
  mkLineEnt h (toFixed6 x1) (toFixed6 y1) (toFixed6 x2) (toFixed6 y2)

/-- The index `k` at which a placed word covers cell `(i, j)`, if any
(each word covers a cell at most once). -/
def letterIdx (wp : WordPos) (i j : Nat) : Option Nat :=
  match wp.direction with
  | .horizontal =>
    if wp.startRow = (i : ℤ) ∧ wp.startCol ≤ (j : ℤ) ∧
        (j : ℤ) < wp.startCol + wp.word.length then
      some ((j : ℤ) - wp.startCol).toNat
    else none
  | .vertical =>
    if wp.startCol = (j : ℤ) ∧ wp.startRow ≤ (i : ℤ) ∧
        (i : ℤ) < wp.startRow + wp.word.length then
      some ((i : ℤ) - wp.startRow).toNat
    else none

/-- The letter a placed word contributes to cell `(i, j)`, if any. -/
def letterAt (wp : WordPos) (i j : Nat) : Option Char :=
  (letterIdx wp i j).map fun k => wp.word.getD k ' '

/-- The letter of the last word in the list covering cell `(i, j)`
(later words overwrite earlier ones). -/
def coveredLetter (words : List WordPos) (i j : Nat) : Option Char :=
  words.foldl
    (fun acc wp =>
      match letterAt wp i j with
      | some ch => some ch
      | none => acc)
    none

/-- An environment in which no font resource loads. -/
def noFontsEnv : String → Option Font := fun _ => none

/-- An environment in which exactly the Arial resource loads
(to a placeholder font object). -/
def onlyArialEnv : String → Option Font := fun url =>
  if url = "/fonts/arial.ttf" then some createFallbackFont else none

/-- Failing input for the handle-uniqueness claim: a 1×2 grid holding the
word `AB`. -/
def dupLayout : ClockLayout := ⟨2, 1, [⟨['A', 'B'], 0, 0, .horizontal⟩]⟩

/-- Failing configuration for the handle-uniqueness claim: vector paths
only (no grid lines, no border), 10 mm cells, no padding, no stretch. -/
def dupConfig : DXFConfig where
  letterSize := 10
  gridSpacing := 10
  gridSpacingY := some 10
  margin := 0
  fontName := "Nope"
  addBorder := false
  addGridLines := false
  useVectorPaths := true
  testMode := false
  letterPaddingPercent := some 0
  horizontalStretch := some 1
  wStretch := some 1
  centerHorizontally := some true

/-- The fallback glyph path at font size 10 and origin (its command list
ends with a ClosePath). -/
def fallbackPath10 : GPath :=
  match createFallbackFont.charToGlyph 'A' with
  | some g => g.getPath 0 0 10
  | none => ⟨[], ⟨0, 0, 0, 0⟩⟩

/-- The fallback glyph path at the measuring font size 1000. -/
def fallbackPath1000 : GPath :=
  match createFallbackFont.charToGlyph 'A' with
  | some g => g.getPath 0 0 1000
  | none => ⟨[], ⟨0, 0, 0, 0⟩⟩

/-- Shorthand for a finite point. -/
def qp (a b : ℚ) : JSPoint := (JSNum.num a, JSNum.num b)

/-- Counterexample input for the collinear-removal idempotence claim. -/
def c9Points : List JSPoint :=
  [qp 0 0, qp (1/2) (9/100), qp (-1) (9/25), qp 1 0]

/-- A small concrete layout for grid-characterization witnesses. -/
def hiLayout : ClockLayout := ⟨2, 1, [⟨['H', 'I'], 0, 0, .horizontal⟩]⟩

end ClaimSupport

theorem foldl_append_flatMap {α β : Type} (f : α → List β) (l : List α)
    (init : List β) :
    l.foldl (fun acc p => acc ++ f p) init = init ++ l.flatMap f := by
  induction l generalizing init with
  | nil => simp
  | cons a t ih => simp [ih]

theorem createDXFPolyline_eq (pts : List JSPoint) (closed : Bool)
    (h : String) :
    createDXFPolyline pts closed h =
      if 2 ≤ (pts.filter finitePt).length then
        polyRecordC h closed (pts.filter finitePt)
      else [] := by
  simp only [createDXFPolyline, polyRecordC]
  rcases Nat.lt_or_ge (pts.filter finitePt).length 2 with hlt | hge
  · rw [if_pos hlt, if_neg (by omega)]
  · rw [if_neg (by omega), if_pos hge, foldl_append_flatMap]

/-- C7: `createDXFPolyline(points, closed, handle)` returns the empty
record whenever fewer than 2 points remain after filtering out
NaN/infinite coordinates; otherwise it returns an LWPOLYLINE record whose
vertex-count field (group code 90) is the number of valid points and whose
coordinates are formatted with fixed 6-decimal precision. -/
theorem createDXFPolyline_contract (pts : List JSPoint) (closed : Bool)
    (h : String) :
    createDXFPolyline pts closed h =
      if 2 ≤ (pts.filter finitePt).length then
        polyRecordC h closed (pts.filter finitePt)
      else [] :=
  createDXFPolyline_eq pts closed h

/-- C5: with horizontal centering enabled, the midpoint of the glyph's
horizontal bounding box after the placement transform `x ↦ s*x + offsetX`
(with `s` the effective stretch, including the per-character W override)
is the cell's horizontal center `margin + (col + 0.5) * spacingX`. -/
theorem centered_glyph_midpoint (c : DXFConfig) (bounds : BBox) (col : Nat)
    (letter : Char) (hc : c.centerHorizontally.getD true = true) :
    (stretchFor c letter * bounds.x1 + offsetXFor c bounds col letter +
      (stretchFor c letter * bounds.x2 + offsetXFor c bounds col letter)) / 2 =
      cellCenterX c col := by
  simp only [offsetXFor, hc, if_true]
  ring

/-- C5 witness: the default configuration (stretch 1.55, W-stretch 0.9)
centers a W glyph with bounds `[0, 600]` on the cell center of column 3. -/
theorem centered_glyph_midpoint_witness :
    (stretchFor defaultConfig 'W' * (0 : ℚ) +
      offsetXFor defaultConfig ⟨0, 0, 600, 800⟩ 3 'W' +
      (stretchFor defaultConfig 'W' * (600 : ℚ) +
        offsetXFor defaultConfig ⟨0, 0, 600, 800⟩ 3 'W')) / 2 =
      cellCenterX defaultConfig 3 :=
  centered_glyph_midpoint defaultConfig ⟨0, 0, 600, 800⟩ 3 'W' rfl

/-- C9 counterexample: on four finite points with tolerance 0.1, a second
application of `removeColinearPoints` removes a further point (the second
pass sees a new successor for the second point), so the function is not
idempotent. -/
theorem removeColinear_not_idempotent_cex :
    removeColinearPoints (removeColinearPoints c9Points (1/10)) (1/10) ≠
      removeColinearPoints c9Points (1/10) := by
  with_unfolding_all decide

theorem rcpGo_sublist (t : ℚ) (l : List JSPoint) :
    ∀ prev, (rcpGo t prev l).Sublist l := by
  induction l with
  | nil => intro prev; simp [rcpGo]
  | cons c tail ih =>
    intro prev
    cases tail with
    | nil => simp [rcpGo]
    | cons next rest =>
      rw [rcpGo]
      split
      · exact (ih c).cons₂ c
      · exact (ih prev).cons c

theorem rcp_sublist (ps : List JSPoint) (t : ℚ) :
    (removeColinearPoints ps t).Sublist ps := by
  unfold removeColinearPoints
  split
  · exact List.Sublist.refl ps
  · dsimp only
    split
    · exact List.filter_sublist ps
    · rcases hv : ps.filter finitePt with _ | ⟨v0, rest⟩
      · simp [hv]
      · simp only [hv]
        have hsub : (v0 :: rest).Sublist ps := hv ▸ List.filter_sublist ps
        exact List.Sublist.trans ((rcpGo_sublist t rest v0).cons₂ v0) hsub

/-- C9 amended: `removeColinearPoints` is not idempotent (see the
counterexample); what does hold is that a second application returns a
subsequence of the first application's result — reapplication can only
remove further points, never add or move them. -/
theorem removeColinear_reapply_sublist (ps : List JSPoint) (t : ℚ) :
    (removeColinearPoints (removeColinearPoints ps t) t).Sublist
      (removeColinearPoints ps t) :=
  rcp_sublist (removeColinearPoints ps t) t

theorem groupGo_no_z (cmds : List PathCommand) :
    ∀ current, PathCommand.Z ∉ current →
      ∀ g ∈ groupGo cmds current, PathCommand.Z ∉ g := by
  induction cmds with
  | nil =>
    intro current hcur g hg
    simp only [groupGo] at hg
    split at hg
    · simp at hg
    · simp at hg
      exact hg ▸ hcur
  | cons c rest ih =>
    intro current hcur g hg
    simp only [groupGo, List.mem_append] at hg
    rcases hg with hg | hg
    · split at hg
      · simp at hg
        exact hg ▸ hcur
      · simp at hg
    · refine ih _ ?_ g hg
      have h1 : PathCommand.Z ∉
          (if c.isM ∧ ¬current.isEmpty then ([] : List PathCommand) else current) := by
        split
        · simp
        · exact hcur
      split
      · exact h1
      next hz =>
        intro hmem
        rcases List.mem_append.mp hmem with hm | hm
        · exact h1 hm
        · simp only [List.mem_singleton] at hm
          exact hz (by rw [← hm]; rfl)

/-- C2 amended: `Z` (ClosePath) commands are dropped while the commands are
grouped into contours, so the ClosePath handler of the flattening loop
never runs — no group handed to the flattener contains a `Z`, and emitted
contours need not end at their first point (closure is instead conveyed by
the polyline closed flag and the wrap-around segment of
`convertPolylinesToLines`). -/
theorem groups_have_no_closepath (cmds g : List PathCommand)
    (hg : g ∈ groupCommands cmds) : PathCommand.Z ∉ g :=
  groupGo_no_z cmds [] (by simp) g hg

/-- C2 amended witness: the single group of the fallback glyph path
contains no ClosePath command. -/
theorem groups_have_no_closepath_witness :
    PathCommand.Z ∉ (groupCommands fallbackPath10.commands).getD 0 [] :=
  groups_have_no_closepath fallbackPath10.commands
    ((groupCommands fallbackPath10.commands).getD 0 [])
    (by with_unfolding_all decide)

/-- C2 counterexample: the fallback glyph's sub-path ends with a ClosePath,
yet the emitted contour's first point `(0, 0)` differs from its last point
`(1.2, 0)` — the flattener never appended the closing point because the
`Z` never reached it. -/
theorem contour_not_closed_cex :
    fallbackPath10.commands.getLast? = some PathCommand.Z ∧
    (processedGroupPoints ((groupCommands fallbackPath10.commands).getD 0 [])
        (JSNum.num 0) (JSNum.num 0) (JSNum.num 1)).head? ≠
      (processedGroupPoints ((groupCommands fallbackPath10.commands).getD 0 [])
        (JSNum.num 0) (JSNum.num 0) (JSNum.num 1)).getLast? := by
  with_unfolding_all decide

theorem parsePointsGo_finite :
    ∀ (l : List String), ∀ p ∈ parsePointsGo l, finitePt p := by
  intro l
  induction l using parsePointsGo.induct with
  | case1 a b c d rest hcond ih =>
    intro p hp
    rw [parsePointsGo, if_pos hcond] at hp
    rcases List.mem_append.mp hp with hm | hm
    · split at hm
      · simp at hm
        simpa [hm] using by assumption
      · simp at hm
    · exact ih p hm
  | case2 a b c d rest hcond ih =>
    intro p hp
    rw [parsePointsGo, if_neg hcond] at hp
    exact ih p hp
  | case3 l hshape =>
    intro p hp
    rw [parsePointsGo] at hp
    · simp at hp
    · exact hshape

theorem emitSegments_eq (pts : List JSPoint)
    (hok : ∀ p ∈ pts, finitePt p) (hc : Nat) :
    emitSegments pts hc =
      ((List.range pts.length).map (fun i =>
        mkLineEnt (hexU (hc + i))
          (toFixed6J (pts.getD i dfltPt).1)
          (toFixed6J (pts.getD i dfltPt).2)
          (toFixed6J (pts.getD ((i + 1) % pts.length) dfltPt).1)
          (toFixed6J (pts.getD ((i + 1) % pts.length) dfltPt).2)),
       hc + pts.length) := by
  have hnan : ∀ i, i < pts.length →
      !(pts.getD i dfltPt).1.isNaNb ∧ !(pts.getD i dfltPt).2.isNaNb := by
    intro i hi
    have hm : pts.getD i dfltPt ∈ pts := by
      rw [List.getD_eq_getElem pts dfltPt hi]
      exact List.getElem_mem hi
    have := hok _ hm
    simp only [finitePt, Bool.and_eq_true] at this
    exact ⟨this.1.1.1, this.1.1.2⟩
  suffices hgen : ∀ n, n ≤ pts.length →
      (List.range n).foldl
        (fun (st : List Entity × Nat) i =>
          let start := pts.getD i dfltPt
          let stop := pts.getD ((i + 1) % pts.length) dfltPt
          if !start.1.isNaNb ∧ !start.2.isNaNb ∧ !stop.1.isNaNb ∧ !stop.2.isNaNb then
            (st.1 ++ [mkLineEnt (hexU st.2) (toFixed6J start.1) (toFixed6J start.2)
              (toFixed6J stop.1) (toFixed6J stop.2)], st.2 + 1)
          else st)
        ([], hc) =
      ((List.range n).map (fun i =>
        mkLineEnt (hexU (hc + i))
          (toFixed6J (pts.getD i dfltPt).1)
          (toFixed6J (pts.getD i dfltPt).2)
          (toFixed6J (pts.getD ((i + 1) % pts.length) dfltPt).1)
          (toFixed6J (pts.getD ((i + 1) % pts.length) dfltPt).2)),
       hc + n) by
    simpa [emitSegments] using hgen pts.length (Nat.le_refl _)
  intro n
  induction n with
  | zero => intro _; simp
  | succ n ih =>
    intro hn
    have hlen : 0 < pts.length := Nat.lt_of_lt_of_le (Nat.succ_pos n) hn
    have hn' : n ≤ pts.length := Nat.le_of_succ_le hn
    have hnlt : n < pts.length := Nat.lt_of_succ_le hn
    rw [List.range_succ, List.foldl_append, ih hn']
    have h1 := hnan n hnlt
    have h2 := hnan ((n + 1) % pts.length) (Nat.mod_lt _ hlen)
    simp only [List.foldl_cons, List.foldl_nil]
    rw [if_pos ⟨h1.1, h1.2, h2.1, h2.2⟩]
    simp [List.range_succ, Nat.add_comm, Nat.add_assoc, Nat.add_left_comm]

/-- C6 amended: for a single entity, `convertPolylinesToLines` drops it
when it is blank; replaces it, when it contains `LWPOLYLINE` and its
parsed vertex list has `n ≥ 2` valid points, by exactly `n` LINE entities
— one per point paired with its cyclic successor (the wrap-around closing
segment included), consuming one handle each; contributes nothing for an
LWPOLYLINE with fewer than 2 valid points; and passes every other
(nonblank) entity through unchanged.  (The original claim is false only
for blank non-LWPOLYLINE entities, which are dropped rather than passed
through — see the counterexample.) -/
theorem convert_polylines_characterization (e : Entity) (hc : Nat) :
    convertPolylinesToLines [e] hc =
      if jsEntityBlank e then ([], hc)
      else if containsLW e then
        if 2 ≤ (parsePolyPoints e).length then
          ((List.range (parsePolyPoints e).length).map (fun i =>
            mkLineEnt (hexU (hc + i))
              (toFixed6J ((parsePolyPoints e).getD i dfltPt).1)
              (toFixed6J ((parsePolyPoints e).getD i dfltPt).2)
              (toFixed6J ((parsePolyPoints e).getD
                ((i + 1) % (parsePolyPoints e).length) dfltPt).1)
              (toFixed6J ((parsePolyPoints e).getD
                ((i + 1) % (parsePolyPoints e).length) dfltPt).2)),
           hc + (parsePolyPoints e).length)
        else ([], hc)
      else ([e], hc) := by
  simp only [convertPolylinesToLines, convertStep, List.foldl_cons,
    List.foldl_nil]
  by_cases hb : jsEntityBlank e
  · simp [hb]
  · simp only [hb, Bool.false_eq_true, if_false, if_neg hb]
    by_cases hlw : containsLW e
    · simp only [hlw, if_pos hlw]
      by_cases hn : 2 ≤ (parsePolyPoints e).length
      · have hfin : ∀ p ∈ parsePolyPoints e, finitePt p := by
          intro p hp
          exact parsePointsGo_finite _ p hp
        rw [if_pos (by omega : (parsePolyPoints e).length ≥ 2)]
        rw [emitSegments_eq _ hfin hc]
        simp [hn]
      · rw [if_neg (by omega : ¬(parsePolyPoints e).length ≥ 2)]
        simp [hn]
    · simp [hlw]

/-- C6 counterexample: the blank entity (the empty record string) does not
contain `LWPOLYLINE`, yet it is dropped by `convertPolylinesToLines`
rather than passed through unchanged. -/
theorem convert_drops_blank_cex :
    containsLW [""] = false ∧
      convertPolylinesToLines [[""]] 0 ≠ ([[""]], 0) := by
  with_unfolding_all decide

theorem toFixed6J_finite (x : JSNum) (hx : x.isFiniteb = true) :
    toFixed6J x = toFixed6 x.toQ := by
  cases x with
  | num q => rfl
  | nan => simp [JSNum.isFiniteb] at hx
  | inf => simp [JSNum.isFiniteb] at hx
  | ninf => simp [JSNum.isFiniteb] at hx

theorem finitePt_components (p : JSPoint) (hp : finitePt p = true) :
    p.1.isFiniteb = true ∧ p.2.isFiniteb = true := by
  simp only [finitePt, Bool.and_eq_true] at hp
  exact ⟨hp.1.2, hp.2⟩

theorem vertexTail_toQ (pts : List JSPoint)
    (hfin : ∀ p ∈ pts, finitePt p) :
    pts.flatMap (fun p => ["10", toFixed6J p.1, "20", toFixed6J p.2]) =
      (pts.map (fun p => (p.1.toQ, p.2.toQ))).flatMap
        (fun p => ["10", toFixed6 p.1, "20", toFixed6 p.2]) := by
  induction pts with
  | nil => rfl
  | cons p t ih =>
    have hp := finitePt_components p (hfin p (List.mem_cons_self p t))
    simp only [List.flatMap_cons, List.map_cons,
      toFixed6J_finite p.1 hp.1, toFixed6J_finite p.2 hp.2,
      ih (fun q hq => hfin q (List.mem_cons_of_mem p hq))]

theorem polyRecord_toQ (hdl : String) (pts : List JSPoint)
    (hfin : ∀ p ∈ pts, finitePt p) :
    polyRecordC hdl true pts =
      polyRecordQ hdl (pts.map (fun p => (p.1.toQ, p.2.toQ))) := by
  simp [polyRecordC, polyRecordQ, vertexTail_toQ pts hfin]

theorem simplifySteps_finite (ps : List JSPoint) :
    ∀ p ∈ simplifySteps ps, finitePt p := by
  intro p hp
  simp only [simplifySteps] at hp
  exact (List.mem_filter.mp hp).2

theorem foldl_entities_inv {α : Type} (step : List Entity × Nat → α → List Entity × Nat)
    (P : Entity → Prop)
    (hstep : ∀ st a, (∀ e ∈ st.1, P e) → ∀ e ∈ (step st a).1, P e)
    (l : List α) :
    ∀ init, (∀ e ∈ init.1, P e) → ∀ e ∈ (l.foldl step init).1, P e := by
  induction l with
  | nil => intro init h; simpa using h
  | cons a t ih => intro init h; exact ih _ (hstep init a h)

theorem pathGroupStep_inv (offX offY stretch : JSNum)
    (st : List Entity × Nat) (g : List PathCommand)
    (hst : ∀ e ∈ st.1, ∃ hdl qs, 2 ≤ (qs : List (ℚ × ℚ)).length ∧
      e = polyRecordQ hdl qs) :
    ∀ e ∈ (pathGroupStep offX offY stretch st g).1,
      ∃ hdl qs, 2 ≤ (qs : List (ℚ × ℚ)).length ∧ e = polyRecordQ hdl qs := by
  intro e he
  unfold pathGroupStep at he
  dsimp only at he
  split at he
  · exact hst e he
  · split at he
    · split at he
      · exact hst e he
      · split at he
        next hlen =>
          split at he
          · rcases List.mem_append.mp he with hm | hm
            · exact hst e hm
            · simp only [List.mem_singleton] at hm
              subst hm
              set simplified :=
                simplifySteps ((flattenGroup g offX offY stretch).filter finitePt)
              have hfin : ∀ p ∈ simplified, finitePt p := simplifySteps_finite _
              have hid : simplified.filter finitePt = simplified :=
                List.filter_eq_self.mpr hfin
              refine ⟨handle4 st.2,
                simplified.map (fun p => (p.1.toQ, p.2.toQ)), ?_, ?_⟩
              · simpa using hlen
              · rw [createDXFPolyline_eq, hid, if_pos hlen,
                  polyRecord_toQ _ _ hfin]
          · exact hst e he
        · exact hst e he
    · exact hst e he

theorem jsEntityBlank_polyRecordQ (hdl : String) (qs : List (ℚ × ℚ)) :
    jsEntityBlank (polyRecordQ hdl qs) = false := by
  have h0 : "0".trim.isEmpty = false := by with_unfolding_all decide
  show (polyRecordQ hdl qs).all _ = false
  rw [polyRecordQ]
  simp only [List.cons_append, List.all_cons, h0, Bool.false_and]

theorem containsLW_polyRecordQ (hdl : String) (qs : List (ℚ × ℚ)) :
    containsLW (polyRecordQ hdl qs) = true := by
  have h1 : listContainsB "LWPOLYLINE".toList "LWPOLYLINE".toList = true := by
    with_unfolding_all decide
  show (polyRecordQ hdl qs).any _ = true
  rw [polyRecordQ]
  simp only [List.cons_append, List.any_cons, h1, Bool.true_or, Bool.or_true]

theorem emitSegments_out (pts : List JSPoint) (hc : Nat)
    (hfin : ∀ p ∈ pts, finitePt p) :
    ∀ e ∈ (emitSegments pts hc).1,
      ∃ hdl x1 y1 x2 y2, e = lineRecordQ hdl x1 y1 x2 y2 := by
  intro e he
  rw [emitSegments_eq pts hfin hc] at he
  simp only [List.mem_map, List.mem_range] at he
  obtain ⟨i, hi, rfl⟩ := he
  have hmem : ∀ j, j < pts.length → finitePt (pts.getD j dfltPt) = true := by
    intro j hj
    refine hfin _ ?_
    rw [List.getD_eq_getElem pts dfltPt hj]
    exact List.getElem_mem hj
  have h1 := finitePt_components _ (hmem i hi)
  have h2 := finitePt_components _
    (hmem ((i + 1) % pts.length)
      (Nat.mod_lt _ (Nat.lt_of_le_of_lt (Nat.zero_le i) hi)))
  exact ⟨hexU (hc + i), _, _, _, _, by
    rw [lineRecordQ, toFixed6J_finite _ h1.1, toFixed6J_finite _ h1.2,
      toFixed6J_finite _ h2.1, toFixed6J_finite _ h2.2]⟩

theorem convert_foldl_out (es : List Entity)
    (hes : ∀ e ∈ es, ∃ hdl qs, 2 ≤ (qs : List (ℚ × ℚ)).length ∧
      e = polyRecordQ hdl qs) :
    ∀ (init : List Entity × Nat),
      (∀ e ∈ init.1, ∃ hdl x1 y1 x2 y2, e = lineRecordQ hdl x1 y1 x2 y2) →
      ∀ e ∈ (es.foldl convertStep init).1,
        ∃ hdl x1 y1 x2 y2, e = lineRecordQ hdl x1 y1 x2 y2 := by
  induction es with
  | nil => intro init hinit e he; simpa using hinit e he
  | cons a t ih =>
    intro init hinit e he
    simp only [List.foldl_cons] at he
    refine ih (fun x hx => hes x (List.mem_cons_of_mem a hx)) _ ?_ e he
    intro x hx
    obtain ⟨hdl, qs, _, rfl⟩ := hes a (List.mem_cons_self a t)
    rw [convertStep, jsEntityBlank_polyRecordQ, containsLW_polyRecordQ] at hx
    simp only [Bool.false_eq_true, if_false, if_true] at hx
    split at hx
    · rcases List.mem_append.mp hx with hm | hm
      · exact hinit x hm
      · exact emitSegments_out _ _ (parsePointsGo_finite _) x hm
    · exact hinit x hx

/-- C3: no coordinate emitted into any glyph-derived entity record is NaN
or infinite: for every input path, offsets and stretch (finite or not),
every LWPOLYLINE emitted by `pathToDXFEntities` serializes only points
that passed the finiteness filter (all its coordinates are 6-decimal
renderings of rationals), and every LINE emitted by
`convertPolylinesToLines` on that output likewise carries only finite
6-decimal coordinates. -/
theorem emitted_coordinates_finite (cmds : List PathCommand)
    (offX offY stretch : JSNum) (h0 hc : Nat) :
    (∀ e ∈ (pathToDXFEntities cmds offX offY h0 stretch).1,
      ∃ hdl qs, 2 ≤ (qs : List (ℚ × ℚ)).length ∧ e = polyRecordQ hdl qs) ∧
    (∀ e ∈ (convertPolylinesToLines
        (pathToDXFEntities cmds offX offY h0 stretch).1 hc).1,
      ∃ hdl x1 y1 x2 y2, e = lineRecordQ hdl x1 y1 x2 y2) := by
  have hpart1 : ∀ e ∈ (pathToDXFEntities cmds offX offY h0 stretch).1,
      ∃ hdl qs, 2 ≤ (qs : List (ℚ × ℚ)).length ∧ e = polyRecordQ hdl qs := by
    intro e he
    unfold pathToDXFEntities at he
    split at he
    · simp at he
    · dsimp only at he
      rw [List.mem_filter] at he
      exact foldl_entities_inv _ _
        (fun st g hst => pathGroupStep_inv offX offY stretch st g hst)
        _ _ (by simp) e he.1
  exact ⟨hpart1, convert_foldl_out _ hpart1 ([], hc) (by simp)⟩

/-- C4: for every non-blank cell the fitted point size is
`targetHeight * 1000 / H` with `H = max(0.0001, measured height at
reference size 1000)` and `targetHeight = spacingY * (1 - 2 *
clamp(letterPaddingPercent, 0, 0.49))`; and for every glyph whose
bounding-box height scales linearly with the point size (height `fs * k`,
with the measured height above the clamp floor), the re-extracted
outline's bounding-box height equals `targetHeight` exactly. -/
theorem fitted_size_and_height (c : DXFConfig) (letter : Char) :
    (∀ (font : Font) (mp : GPath),
      extractGlyphPath font letter 1000 = some mp →
      fontSizeForTarget font c letter =
        some (targetHeightFor c * 1000 /
          max (1/10000) (mp.bbox.y2 - mp.bbox.y1))) ∧
    (∀ (font : Font) (k : ℚ), (1/10000 : ℚ) ≤ 1000 * k →
      (∀ fs : ℚ, ∃ gp, extractGlyphPath font letter fs = some gp ∧
        gp.bbox.y2 - gp.bbox.y1 = fs * k) →
      ∃ fsz gp, fontSizeForTarget font c letter = some fsz ∧
        extractGlyphPath font letter fsz = some gp ∧
        gp.bbox.y2 - gp.bbox.y1 = targetHeightFor c) := by
  constructor
  · intro font mp hmp
    simp [fontSizeForTarget, measuredHeightAt1000, hmp]
  · intro font k hk hlin
    obtain ⟨mp, hmp, hh⟩ := hlin 1000
    have hkpos : 0 < k := by nlinarith
    have hmax : max (1/10000 : ℚ) (mp.bbox.y2 - mp.bbox.y1) = 1000 * k := by
      rw [hh]; exact max_eq_right hk
    obtain ⟨gp, hgp, hgph⟩ := hlin (targetHeightFor c * 1000 / (1000 * k))
    refine ⟨targetHeightFor c * 1000 / (1000 * k), gp, ?_, hgp, ?_⟩
    · simp [fontSizeForTarget, measuredHeightAt1000, hmp, hmax]
      rw [show ((10000 : ℚ)⁻¹ ⊔ (mp.bbox.y2 - mp.bbox.y1)) = 1000 * k from by
        rw [← hmax]; norm_num]
    · rw [hgph]
      field_simp
      ring

set_option maxRecDepth 8000 in
/-- C4 witness: the synthetic fallback glyph (height `0.8 * fontSize`,
measured height 800 at size 1000) under the default configuration. -/
theorem fitted_size_and_height_witness :
    fontSizeForTarget createFallbackFont defaultConfig 'A' =
      some (targetHeightFor defaultConfig * 1000 /
        max (1/10000) (fallbackPath1000.bbox.y2 - fallbackPath1000.bbox.y1)) ∧
    ∃ fsz gp,
      fontSizeForTarget createFallbackFont defaultConfig 'A' = some fsz ∧
      extractGlyphPath createFallbackFont 'A' fsz = some gp ∧
      gp.bbox.y2 - gp.bbox.y1 = targetHeightFor defaultConfig := by
  obtain ⟨h1, h2⟩ := fitted_size_and_height defaultConfig 'A'
  constructor
  · exact h1 createFallbackFont fallbackPath1000 (by with_unfolding_all decide)
  · refine h2 createFallbackFont (4/5) (by norm_num) ?_
    intro fs
    refine ⟨_, rfl, ?_⟩
    show (0 + fs * (4/5)) - 0 = fs * (4/5)
    ring

/-- C8 amended: when the requested name has a font configuration, a fetch
failure falls back to loading Arial (`loadFont name = loadFont "Arial"`);
a name without a configuration returns null directly, without attempting
Arial; and in every case the export pipeline receives the loaded font or —
when `getFont` yields null — the synthetic fallback font, never an
error. -/
theorem font_fallback_chain (cache : List (String × Font))
    (env : String → Option Font) (name : String) (cfg : FontConfig) :
    (cache.find? (fun p => p.1 == name) = none →
      fontConfigs.find? (fun c => c.name == name) = some cfg →
      env cfg.url = none → name ≠ "Arial" →
      loadFont cache env name = loadFont cache env "Arial") ∧
    fontForVectorPaths cache env name =
      (getFont cache env name).getD createFallbackFont := by
  constructor
  · intro h1 h2 h3 h4
    conv_lhs => rw [loadFont]
    rw [h1, h2]
    dsimp only
    rw [h3]
    dsimp only
    rw [if_pos h4]
  · cases h : getFont cache env name <;> simp [fontForVectorPaths, h]

/-- C8 amended witness: with an empty cache and no loadable resources, the
unreachable-resource name `Monaco` falls back to the Arial chain, and the
export pipeline receives the synthetic fallback font. -/
theorem font_fallback_chain_witness :
    loadFont [] noFontsEnv "Monaco" = loadFont [] noFontsEnv "Arial" ∧
    fontForVectorPaths [] noFontsEnv "Monaco" =
      (getFont [] noFontsEnv "Monaco").getD createFallbackFont := by
  obtain ⟨h1, h2⟩ := font_fallback_chain [] noFontsEnv "Monaco"
    ⟨"Monaco", "/fonts/Monaco.ttf", "Monaco, Menlo, Ubuntu Mono, monospace"⟩
  exact ⟨h1 rfl (by with_unfolding_all decide) rfl (by decide), h2⟩

/-- C8 counterexample: with Arial loadable, a font name that has no
configuration entry (`NoSuchFont`) fails without falling back to Arial —
`loadFont` returns null although the Arial load would succeed, so the
claimed unconditional named-font → Arial fallback does not hold. -/
theorem loadFont_unknown_name_cex :
    loadFont [] onlyArialEnv "NoSuchFont" = none ∧
    loadFont [] onlyArialEnv "Arial" = some createFallbackFont ∧
    loadFont [] onlyArialEnv "NoSuchFont" ≠ loadFont [] onlyArialEnv "Arial" := by
  have hf : fontConfigs.find? (fun c => c.name == "NoSuchFont") = none := by
    with_unfolding_all decide
  have ha : fontConfigs.find? (fun c => c.name == "Arial") =
      some ⟨"Arial", "/fonts/arial.ttf", "Arial, sans-serif"⟩ := by
    with_unfolding_all decide
  have henv : onlyArialEnv "/fonts/arial.ttf" = some createFallbackFont := by
    simp [onlyArialEnv]
  have e1 : loadFont [] onlyArialEnv "NoSuchFont" = none := by
    rw [loadFont]
    simp [hf]
  have e2 : loadFont [] onlyArialEnv "Arial" = some createFallbackFont := by
    rw [loadFont]
    simp [ha, henv]
  refine ⟨e1, e2, ?_⟩
  rw [e1, e2]
  simp

/-- C1 (code bug): on a 1×2 grid holding `AB`, exported with vector paths
only and no loadable fonts (so the fallback glyph is used), the emitted
entity handles repeat: `addVectorPaths` resets the shared counter to
`pathToDXFEntities`'s `nextHandle` after `convertPolylinesToLines` already
consumed far more handles, so the second glyph's LINE handles reuse the
first glyph's.  The handle sequence is neither duplicate-free nor
monotonically increasing. -/
theorem export_duplicate_handles :
    (exportEntities [] noFontsEnv dupLayout dupConfig).filterMap handleOf =
      ["A", "B", "C", "D", "E", "F", "10",
       "B", "C", "D", "E", "F", "10", "11"] ∧
    ¬ ((exportEntities [] noFontsEnv dupLayout dupConfig).filterMap
        handleOf).Nodup := by
  with_unfolding_all decide

theorem letterIdx_iff (wp : WordPos) (i j k : Nat) :
    letterIdx wp i j = some k ↔
      ((match wp.direction with
        | .horizontal => wp.startRow
        | .vertical => wp.startRow + (k : ℤ)) = (i : ℤ) ∧
       (match wp.direction with
        | .horizontal => wp.startCol + (k : ℤ)
        | .vertical => wp.startCol) = (j : ℤ) ∧
       k < wp.word.length) := by
  cases hd : wp.direction with
  | horizontal =>
    simp only [letterIdx, hd]
    constructor
    · intro h
      split at h
      · simp only [Option.some_inj] at h
        omega
      · simp at h
    · intro h
      rw [if_pos (by omega)]
      simp only [Option.some_inj]
      omega
  | vertical =>
    simp only [letterIdx, hd]
    constructor
    · intro h
      split at h
      · simp only [Option.some_inj] at h
        omega
      · simp at h
    · intro h
      rw [if_pos (by omega)]
      simp only [Option.some_inj]
      omega

theorem setCell_length (g : List (List Char)) (r c : Nat) (ch : Char) :
    (setCell g r c ch).length = g.length := by
  simp [setCell]

theorem setCell_row_length (g : List (List Char)) (r c : Nat) (ch : Char)
    (k : Nat) :
    ((setCell g r c ch).getD k []).length = (g.getD k []).length := by
  rw [setCell, List.getD_eq_getElem?_getD, List.getD_eq_getElem?_getD,
    List.getElem?_set]
  by_cases hrk : r = k
  · subst hrk
    by_cases hr : r < g.length
    · simp [hr]
    · simp [hr, List.getElem?_eq_none (Nat.le_of_not_lt hr)]
  · simp [hrk]

theorem setCell_cell (g : List (List Char)) (r c : Nat) (ch : Char)
    (i j : Nat) (hr : r < g.length) (hc : c < (g.getD r []).length) :
    ((setCell g r c ch).getD i []).getD j ' ' =
      if r = i ∧ c = j then ch
      else (g.getD i []).getD j ' ' := by
  have h1 : (setCell g r c ch).getD i [] =
      if r = i then (g.getD r []).set c ch else g.getD i [] := by
    rw [setCell, List.getD_eq_getElem?_getD, List.getElem?_set]
    by_cases hri : r = i
    · subst hri
      simp [hr, ← List.getD_eq_getElem?_getD]
    · simp [hri, ← List.getD_eq_getElem?_getD]
  by_cases hri : r = i
  · subst hri
    rw [h1, if_pos rfl]
    rw [List.getD_eq_getElem?_getD, List.getElem?_set]
    by_cases hcj : c = j
    · subst hcj
      have hc2 : c < (g[r]?.getD []).length := by
        rw [← List.getD_eq_getElem?_getD]
        exact hc
      simp [hc2]
    · simp [hcj, ← List.getD_eq_getElem?_getD]
  · rw [h1, if_neg hri]
    simp [hri]

theorem placeLetterStep_dims (H W : Nat) (wp : WordPos)
    (g : List (List Char)) (n : Nat)
    (hg : g.length = H ∧ ∀ k, k < H → (g.getD k []).length = W) :
    (placeLetterStep H W wp g n).length = H ∧
      ∀ k, k < H → ((placeLetterStep H W wp g n).getD k []).length = W := by
  rw [placeLetterStep]
  split
  · exact ⟨by rw [setCell_length]; exact hg.1,
      fun k hk => by rw [setCell_row_length]; exact hg.2 k hk⟩
  · exact hg

theorem placeLetterStep_cell (H W : Nat) (wp : WordPos)
    (g : List (List Char)) (n i j : Nat)
    (hg : g.length = H ∧ ∀ k, k < H → (g.getD k []).length = W)
    (hn : n < wp.word.length) (hi : i < H) (hj : j < W) :
    ((placeLetterStep H W wp g n).getD i []).getD j ' ' =
      if letterIdx wp i j = some n then wp.word.getD n ' '
      else (g.getD i []).getD j ' ' := by
  obtain ⟨w, sr, sc, dir⟩ := wp
  have hiff := letterIdx_iff ⟨w, sr, sc, dir⟩ i j n
  cases dir with
  | horizontal =>
    dsimp only at hiff hn ⊢
    rw [placeLetterStep]
    dsimp only
    by_cases hcover : letterIdx ⟨w, sr, sc, Direction.horizontal⟩ i j = some n
    · rw [if_pos hcover]
      have hc1 := hiff.mp hcover
      rw [if_pos (by omega)]
      have hrow : sr.toNat = i := by omega
      have hcol : (sc + (n : ℤ)).toNat = j := by omega
      rw [hrow, hcol, setCell_cell g i j _ i j (hg.1 ▸ hi)
        (by rw [hg.2 i hi]; exact hj), if_pos ⟨rfl, rfl⟩]
    · rw [if_neg hcover]
      split
      next hguard =>
        have hne : ¬(sr.toNat = i ∧ (sc + (n : ℤ)).toNat = j) := by
          intro hcon
          exact hcover (hiff.mpr (by omega))
        rw [setCell_cell g _ _ _ i j (by rw [hg.1]; omega)
          (by rw [hg.2 _ (by omega)]; omega), if_neg hne]
      · rfl
  | vertical =>
    dsimp only at hiff hn ⊢
    rw [placeLetterStep]
    dsimp only
    by_cases hcover : letterIdx ⟨w, sr, sc, Direction.vertical⟩ i j = some n
    · rw [if_pos hcover]
      have hc1 := hiff.mp hcover
      rw [if_pos (by omega)]
      have hrow : (sr + (n : ℤ)).toNat = i := by omega
      have hcol : sc.toNat = j := by omega
      rw [hrow, hcol, setCell_cell g i j _ i j (hg.1 ▸ hi)
        (by rw [hg.2 i hi]; exact hj), if_pos ⟨rfl, rfl⟩]
    · rw [if_neg hcover]
      split
      next hguard =>
        have hne : ¬((sr + (n : ℤ)).toNat = i ∧ sc.toNat = j) := by
          intro hcon
          exact hcover (hiff.mpr (by omega))
        rw [setCell_cell g _ _ _ i j (by rw [hg.1]; omega)
          (by rw [hg.2 _ (by omega)]; omega), if_neg hne]
      · rfl

theorem foldl_place_dims (H W : Nat) (wp : WordPos) :
    ∀ (l : List Nat) (g : List (List Char)),
      (g.length = H ∧ ∀ k, k < H → (g.getD k []).length = W) →
      ((l.foldl (placeLetterStep H W wp) g).length = H ∧
        ∀ k, k < H → ((l.foldl (placeLetterStep H W wp) g).getD k []).length = W) := by
  intro l
  induction l with
  | nil => intro g hg; simpa using hg
  | cons a t ih => intro g hg; exact ih _ (placeLetterStep_dims H W wp g a hg)

theorem placeWord_go (H W : Nat) (wp : WordPos) (g : List (List Char))
    (hg : g.length = H ∧ ∀ k, k < H → (g.getD k []).length = W)
    (i j : Nat) (hi : i < H) (hj : j < W) :
    ∀ n, n ≤ wp.word.length →
      (((List.range n).foldl (placeLetterStep H W wp) g).getD i []).getD j ' ' =
        (match letterIdx wp i j with
         | some k => if k < n then some (wp.word.getD k ' ') else none
         | none => none).getD ((g.getD i []).getD j ' ') := by
  intro n
  induction n with
  | zero => intro _; cases hidx : letterIdx wp i j <;> simp
  | succ n ihn =>
    intro hle
    rw [List.range_succ, List.foldl_append, List.foldl_cons, List.foldl_nil]
    rw [placeLetterStep_cell H W wp _ n i j
      (foldl_place_dims H W wp _ g hg) (by omega) hi hj]
    rw [ihn (by omega)]
    cases hidx : letterIdx wp i j with
    | none => simp [hidx]
    | some k =>
      by_cases hkn : k = n
      · subst hkn
        simp [hidx, Nat.lt_succ_self]
      · by_cases hklt : k < n
        · simp [hidx, hkn, hklt, Nat.lt_succ_of_lt hklt]
        · have h2 : ¬k < n + 1 := by omega
          simp [hidx, hkn, hklt, h2]

theorem placeWord_cell (H W : Nat) (wp : WordPos) (g : List (List Char))
    (hg : g.length = H ∧ ∀ k, k < H → (g.getD k []).length = W)
    (i j : Nat) (hi : i < H) (hj : j < W) :
    ((placeWord H W g wp).getD i []).getD j ' ' =
      (letterAt wp i j).getD ((g.getD i []).getD j ' ') := by
  rw [placeWord, placeWord_go H W wp g hg i j hi hj wp.word.length (Nat.le_refl _)]
  cases hidx : letterIdx wp i j with
  | none => simp [hidx, letterAt]
  | some k =>
    have hk := ((letterIdx_iff wp i j k).mp hidx).2.2
    simp [hidx, letterAt, hk]

theorem placeWord_dims (H W : Nat) (wp : WordPos) (g : List (List Char))
    (hg : g.length = H ∧ ∀ k, k < H → (g.getD k []).length = W) :
    (placeWord H W g wp).length = H ∧
      ∀ k, k < H → ((placeWord H W g wp).getD k []).length = W := by
  rw [placeWord]
  exact foldl_place_dims H W wp _ g hg

theorem words_fold_dims (H W : Nat) :
    ∀ (ws : List WordPos) (g : List (List Char)),
      (g.length = H ∧ ∀ k, k < H → (g.getD k []).length = W) →
      ((ws.foldl (placeWord H W) g).length = H ∧
        ∀ k, k < H → ((ws.foldl (placeWord H W) g).getD k []).length = W) := by
  intro ws
  induction ws with
  | nil => intro g hg; simpa using hg
  | cons w t ih => intro g hg; exact ih _ (placeWord_dims H W w g hg)

theorem coveredFold_acc (i j : Nat) :
    ∀ (ws : List WordPos) (acc : Option Char),
      ws.foldl (fun acc wp =>
        match letterAt wp i j with
        | some ch => some ch
        | none => acc) acc =
      match ws.foldl (fun acc wp =>
        match letterAt wp i j with
        | some ch => some ch
        | none => acc) none with
      | some ch => some ch
      | none => acc := by
  intro ws
  induction ws with
  | nil => intro acc; rfl
  | cons w t ih =>
    intro acc
    simp only [List.foldl_cons]
    rw [ih (match letterAt w i j with | some ch => some ch | none => acc),
      ih (match letterAt w i j with | some ch => some ch | none => none)]
    cases ht : t.foldl (fun acc wp =>
        match letterAt wp i j with
        | some ch => some ch
        | none => acc) none <;>
      cases hw : letterAt w i j <;> simp

theorem grid_fold_cell (H W : Nat) (i j : Nat) (hi : i < H) (hj : j < W) :
    ∀ (ws : List WordPos) (g : List (List Char)),
      (g.length = H ∧ ∀ k, k < H → (g.getD k []).length = W) →
      ((ws.foldl (placeWord H W) g).getD i []).getD j ' ' =
        (ws.foldl (fun acc wp =>
          match letterAt wp i j with
          | some ch => some ch
          | none => acc) none).getD ((g.getD i []).getD j ' ') := by
  intro ws
  induction ws with
  | nil => intro g _; rfl
  | cons w t ih =>
    intro g hg
    simp only [List.foldl_cons]
    rw [ih (placeWord H W g w) (placeWord_dims H W w g hg)]
    rw [placeWord_cell H W w g hg i j hi hj]
    rw [coveredFold_acc i j t
      (match letterAt w i j with | some ch => some ch | none => none)]
    cases ht : t.foldl (fun acc wp =>
        match letterAt wp i j with
        | some ch => some ch
        | none => acc) none <;>
      cases hw : letterAt w i j <;> simp [ht, hw]

/-- C10: `createLetterGrid` returns exactly `gridHeight` rows of exactly
`gridWidth` cells (letters falling outside the grid are silently clipped —
no out-of-bounds write occurs), and every in-range cell holds the letter
of the last word in the list covering it, or a space when no word covers
it (so each cell is a space or a letter of some placed word, and later
words overwrite earlier ones). -/
theorem createLetterGrid_characterization (layout : ClockLayout) :
    (createLetterGrid layout).length = layout.gridHeight ∧
    (∀ row ∈ createLetterGrid layout, row.length = layout.gridWidth) ∧
    (∀ i j, i < layout.gridHeight → j < layout.gridWidth →
      ((createLetterGrid layout).getD i []).getD j ' ' =
        (coveredLetter layout.words i j).getD ' ') := by
  have hg0 : (List.replicate layout.gridHeight
        (List.replicate layout.gridWidth ' ')).length = layout.gridHeight ∧
      ∀ k, k < layout.gridHeight →
        ((List.replicate layout.gridHeight
          (List.replicate layout.gridWidth ' ')).getD k []).length =
          layout.gridWidth := by
    refine ⟨List.length_replicate _ _, fun k hk => ?_⟩
    rw [List.getD_eq_getElem?_getD, List.getElem?_replicate, if_pos hk]
    simp
  have hdims := words_fold_dims layout.gridHeight layout.gridWidth
    layout.words _ hg0
  refine ⟨hdims.1, ?_, ?_⟩
  · intro row hrow
    rw [createLetterGrid, List.mem_iff_getElem] at hrow
    obtain ⟨k, hklt, rfl⟩ := hrow
    have hkH : k < layout.gridHeight := by
      rw [← hdims.1]; exact hklt
    have h2 := hdims.2 k hkH
    rw [List.getD_eq_getElem?_getD, List.getElem?_eq_getElem hklt] at h2
    simpa using h2
  · intro i j hi hj
    have hcell := grid_fold_cell layout.gridHeight layout.gridWidth i j hi hj
      layout.words _ hg0
    rw [createLetterGrid, hcell]
    have hrow0 : (List.replicate layout.gridHeight
        (List.replicate layout.gridWidth ' ')).getD i [] =
        List.replicate layout.gridWidth ' ' := by
      rw [List.getD_eq_getElem?_getD, List.getElem?_replicate, if_pos hi]
      rfl
    have hsp : ((List.replicate layout.gridHeight
        (List.replicate layout.gridWidth ' ')).getD i []).getD j ' ' = ' ' := by
      rw [hrow0, List.getD_eq_getElem?_getD, List.getElem?_replicate, if_pos hj]
      rfl
    rw [hsp]
    rfl

/-- C10 witness: on a 1×2 grid holding `HI`, row 0 has width 2 and cell
(0,1) holds the covering word's letter. -/
theorem createLetterGrid_characterization_witness :
    ((createLetterGrid hiLayout).getD 0 []).length = hiLayout.gridWidth ∧
    ((createLetterGrid hiLayout).getD 0 []).getD 1 ' ' =
      (coveredLetter hiLayout.words 0 1).getD ' ' :=
  ⟨(createLetterGrid_characterization hiLayout).2.1 _
      (by with_unfolding_all decide),
   (createLetterGrid_characterization hiLayout).2.2 0 1
      (by decide) (by decide)⟩

/-- C3 witness: the first entity emitted for the fallback glyph path is an
LWPOLYLINE record over finite rational coordinates. -/
theorem emitted_coordinates_finite_witness :
    ∃ hdl qs, 2 ≤ (qs : List (ℚ × ℚ)).length ∧
      ((pathToDXFEntities fallbackPath10.commands (JSNum.num 0) (JSNum.num 0)
        10 (JSNum.num 1)).1).getD 0 [] = polyRecordQ hdl qs :=
  (emitted_coordinates_finite fallbackPath10.commands (JSNum.num 0)
    (JSNum.num 0) (JSNum.num 1) 10 10).1 _ (by with_unfolding_all decide)
